import Mathlib

/-!
Verification of the csv2vbo conversion engine (`src/csv2vbo.py`).

The Python program is shallowly embedded here:

* `DataFrame` models the Python `DataFrame` class (header, data rows,
  comment/info rows, per-channel units as an association list).
* Arbitrary-precision `Decimal` values are modelled by `ℚ` (the program
  performs only exact `+ - * /` arithmetic and half-up rounding, all of
  which are exact on rationals for the inputs it handles).
* A raw CSV cell is modelled by `Option ℚ`: the outcome of the primitive
  parse that the cell's transform applies to the raw string
  (`Decimal(v)` for the decimal channels, `_datetime_to_secs` for the
  TrackMaster `time` channel).  `some d` means the raw string parses to
  the value `d`; `none` means the parse raises.
* A converted VBO cell is a `VboVal`: either a number, or the literal
  sentinel string `"-0"` that `_map_value` substitutes when a transform
  raises.
-/

namespace Csv2Vbo

/-- The `DataFrame` class: header row, data rows, info (comment) rows and
the unit annotations of user-defined channels.  `α` is the cell type of
the data rows (strings after parsing, parse outcomes fed to `convert`,
rationals fed to `interpolate_vbo`, strings again after formatting). -/
structure DataFrame (α : Type) where
  head : List String
  data : List (List α)
  info : List (List String)
  units : List (String × String)

/-- A converted cell: a Decimal value, or the `"-0"` sentinel string that
`Converter._map_value` substitutes when the value transform raises. -/
inductive VboVal where
  | num : ℚ → VboVal
  | err : VboVal
deriving DecidableEq

/-- A value transform (`Converter._value_map` entry), acting on the parse
outcome of the raw cell: `none` output means the transform raises. -/
def Transform : Type := Option ℚ → Option ℚ

/-- The three concrete `Converter` subclasses. -/
inductive ConverterId where
  | raceChrono
  | gTechFanatic
  | trackMaster
deriving DecidableEq

/-- The `_base_map` of each converter (insertion order of the Python dict). -/
def baseMap : ConverterId → List (String × String)
  | ConverterId.raceChrono =>
      [("Locked satellites", "satellites"), ("Timestamp (s)", "time"),
       ("Latitude (deg)", "latitude"), ("Longitude (deg)", "longitude"),
       ("Speed (kph)", "velocity kmh"), ("Bearing (deg)", "heading"),
       ("Altitude (m)", "height")]
  | ConverterId.gTechFanatic =>
      [("Time(s)", "time"), ("GPS_Lat", "latitude"), ("GPS_Lon", "longitude"),
       ("Speed(kph)", "velocity kmh"), ("Heading(deg)", "heading")]
  | ConverterId.trackMaster =>
      [("time=", "time"), ("latitude=", "latitude"), ("longitude=", "longitude"),
       ("speed=", "velocity kmh"), ("bearing=", "heading"), ("altitude=", "height")]

/-- The `_user_map` of each converter: raw name to (VBO name, unit). -/
def userMap : ConverterId → List (String × (String × String))
  | ConverterId.raceChrono =>
      [("Lateral Acceleration (G)", ("LatAcc", "m/s2")),
       ("Longitudinal Acceleration (G)", ("LongAcc", "m/s2"))]
  | ConverterId.gTechFanatic =>
      [("G-Force_Lat(G)", ("LatAcc", "m/s2")),
       ("G-Force_Fwd(G)", ("LongAcc", "m/s2"))]
  | ConverterId.trackMaster =>
      [("lateral_accel=", ("LatAcc", "m/s2")),
       ("accel=", ("LongAcc", "m/s2"))]

/-- The `_value_map` set up in `Converter.__init__`.  `Decimal(v)` is the
identity on the parse outcome (raising on parse failure); latitude and
longitude are converted to angular minutes; `LatAcc`/`LongAcc` use
`_decimal_or_default(v, 0.0)`, which maps a parse failure to `0` instead
of raising. -/
def defaultValueMap (n : String) : Option Transform :=
  if n = "satellites" then some (fun p => p)
  else if n = "time" then some (fun p => p)
  else if n = "latitude" then some (fun p => Option.map (fun d => 60 * d) p)
  else if n = "longitude" then some (fun p => Option.map (fun d => (-60) * d) p)
  else if n = "velocity kmh" then some (fun p => p)
  else if n = "heading" then some (fun p => p)
  else if n = "height" then some (fun p => p)
  else if n = "LatAcc" then some (fun p => some (p.getD 0))
  else if n = "LongAcc" then some (fun p => some (p.getD 0))
  else none

/-- Per-converter `_value_map` after the subclass `update` calls.
`GTechFanaticConverter` overrides latitude with `Decimal(v) / 10000`,
longitude with `-Decimal(v) / 10000` and `LatAcc` with
`-_decimal_or_default(v, 0.0)`.  `TrackMasterConverter` overrides `time`
with `_datetime_to_secs`, whose raw parse outcome the cell already is. -/
def valueMap : ConverterId → String → Option Transform
  | ConverterId.raceChrono, n => defaultValueMap n
  | ConverterId.gTechFanatic, n =>
      if n = "latitude" then some (fun p => Option.map (fun d => d / 10000) p)
      else if n = "longitude" then some (fun p => Option.map (fun d => -d / 10000) p)
      else if n = "LatAcc" then some (fun p => some (-(p.getD 0)))
      else defaultValueMap n
  | ConverterId.trackMaster, n =>
      if n = "time" then some (fun p => p)
      else defaultValueMap n

/-- Model of `Converter._map_name`: base map first, then user map, else `none`. -/
def mapName (c : ConverterId) (csvName : String) : Option String :=
  match (baseMap c).lookup csvName with
  | some r => some r
  | none => ((userMap c).lookup csvName).map Prod.fst

/-- Model of `Converter._get_mapper`: `none` VBO name needs no mapper; a named VBO
channel without a `_value_map` entry raises (outer `none`). -/
def getMapper (c : ConverterId) (vboName : Option String) :
    Option (Option (String × Transform)) :=
  match vboName with
  | none => some none
  | some n =>
    match valueMap c n with
    | some f => some (some (n, f))
    | none => none

/-- The list comprehension `[self._get_mapper(name) for name in vbo_names]`;
an exception from `_get_mapper` propagates (outer `none`). -/
def getMappers (c : ConverterId) : List (Option String) → Option (List (Option (String × Transform)))
  | [] => some []
  | vn :: rest =>
    match getMapper c vn, getMappers c rest with
    | some m, some ms => some (m :: ms)
    | _, _ => none

/-- Model of `Converter._map_value`: apply the transform; if it raises, substitute
the `"-0"` sentinel (and print a warning, see `mapValueWarns`). -/
def mapValue (mapper : String × Transform) (cell : Option ℚ) : VboVal :=
  match mapper.2 cell with
  | some q => VboVal.num q
  | none => VboVal.err

/-- The method `Converter._map_value` prints a warning on stderr exactly when the
transform raises. -/
def mapValueWarns (mapper : String × Transform) (cell : Option ℚ) : Bool :=
  (mapper.2 cell).isNone

/-- Model of `Converter._map_values`: zip the row with the mappers, skip columns
without a mapper, convert the rest. -/
def mapValues (cells : List (Option ℚ)) (mappers : List (Option (String × Transform))) :
    List VboVal :=
  (cells.zip mappers).filterMap (fun pm => pm.2.map (fun m => mapValue m pm.1))

/-- The adjacent-duplicate elimination loop of `Converter.convert`:
append a row only if it differs from the last appended row. -/
def dedupAdj (last : Option (List VboVal)) : List (List VboVal) → List (List VboVal)
  | [] => []
  | r :: rest => if some r = last then dedupAdj last rest else r :: dedupAdj (some r) rest

/-- The VBO names of the supported raw columns, in header order
(`vbo_head` before the satellites fudge). -/
def supportedNames (c : ConverterId) (header : List String) : List String :=
  (header.map (mapName c)).filterMap id

/-- Model of `Converter.convert`. -/
def convert (c : ConverterId) (T : DataFrame (Option ℚ)) : Option (DataFrame VboVal) :=
  let vboNames := T.head.map (mapName c)
  let supported := vboNames.filterMap id
  let vboHead := if ("satellites") ∈ supported then supported
                 else "satellites" :: supported
  let baseRow : List VboVal := if ("satellites") ∈ supported then []
                               else [VboVal.num 5]
  match getMappers c vboNames with
  | none => none
  | some mappers =>
    some { head := vboHead,
           data := dedupAdj none (T.data.map (fun r => baseRow ++ mapValues r mappers)),
           info := T.info,
           units := T.head.filterMap (fun n =>
             match (userMap c).lookup n with
             | some cu => if cu.1 ∈ vboHead then some cu else none
             | none => none) }

/-- The row built for one raw row inside `Converter.convert` (the
satellites fudge column followed by the mapped values). -/
def builtRow (c : ConverterId) (header : List String) (r : List (Option ℚ)) : List VboVal :=
  (if ("satellites") ∈ supportedNames c header then []
   else [VboVal.num 5]) ++
    mapValues r ((getMappers c (header.map (mapName c))).getD [])

/-- The unit association list built at the end of `Converter.convert`. -/
def unitsOut (c : ConverterId) (T : DataFrame (Option ℚ)) : List (String × String) :=
  T.head.filterMap (fun n =>
    match (userMap c).lookup n with
    | some cu =>
      if cu.1 ∈ (if ("satellites") ∈ supportedNames c T.head then supportedNames c T.head
                 else "satellites" :: supportedNames c T.head)
      then some cu else none
    | none => none)

/-- The output header of `Converter.convert`. -/
def headOut (c : ConverterId) (header : List String) : List String :=
  if ("satellites") ∈ supportedNames c header then supportedNames c header
  else "satellites" :: supportedNames c header

section ConvertLemmas

/-- A successful lookup returns a value stored in the list. -/
theorem lookup_val_mem {β : Type} :
    ∀ (l : List (String × β)) (k : String) (v : β),
      l.lookup k = some v → v ∈ l.map Prod.snd := by
  intro l
  induction l with
  | nil => intro k v h; simp [List.lookup] at h
  | cons a t ih =>
    intro k v h
    rw [List.lookup_cons] at h
    by_cases hk : k == a.1
    · simp [hk] at h; simp [h]
    · simp [hk] at h
      exact List.mem_cons_of_mem _ (ih k v h)

/-- Every VBO name produced by `_map_name` has a `_value_map` entry, for
each of the three concrete converters. -/
theorem valueMap_of_mapName (c : ConverterId) (n : String) (v : String)
    (h : mapName c n = some v) : (valueMap c v).isSome = true := by
  unfold mapName at h
  have hv : v ∈ (baseMap c).map Prod.snd ∨
      v ∈ ((userMap c).map Prod.snd).map Prod.fst := by
    rcases hb : (baseMap c).lookup n with _ | w
    · rw [hb] at h
      simp only at h
      rcases hu : (userMap c).lookup n with _ | cu
      · rw [hu] at h; simp at h
      · rw [hu] at h
        simp only [Option.map_some', Option.some.injEq] at h
        right
        subst h
        exact List.mem_map_of_mem Prod.fst (lookup_val_mem _ _ _ hu)
    · rw [hb] at h
      simp only [Option.some.injEq] at h
      left
      rw [← h]
      exact lookup_val_mem _ _ _ hb
  cases c <;>
    simp only [baseMap, userMap, List.map_cons, List.map_nil] at hv <;>
    rcases hv with hv | hv <;> fin_cases hv <;> rfl

/-- The function `getMappers` never raises on the names produced by `_map_name`. -/
theorem getMappers_eq (c : ConverterId) (header : List String) :
    getMappers c (header.map (mapName c)) =
      some ((header.map (mapName c)).map (fun vn =>
        vn.bind (fun n => (valueMap c n).map (fun f => (n, f))))) := by
  induction header with
  | nil => rfl
  | cons a t ih =>
    simp only [List.map_cons]
    rcases ha : mapName c a with _ | v
    · simp only [getMappers, getMapper, ih, Option.bind]
    · have hvm := valueMap_of_mapName c a v ha
      rcases hval : valueMap c v with _ | f
      · rw [hval] at hvm; simp at hvm
      · simp only [getMappers, getMapper, hval, ih, Option.bind, Option.map_some']

/-- Closed form of `Converter.convert`: it always succeeds for the three
concrete converters, producing the fudged header, the deduplicated built
rows, the carried-over comments and the user units. -/
theorem convert_eq (c : ConverterId) (T : DataFrame (Option ℚ)) :
    convert c T =
      some { head := headOut c T.head,
             data := dedupAdj none (T.data.map (fun r => builtRow c T.head r)),
             info := T.info,
             units := unitsOut c T } := by
  unfold convert builtRow unitsOut headOut supportedNames
  rw [getMappers_eq]
  simp only [getMappers_eq, Option.getD_some]

end ConvertLemmas

/-- Claim C1 counterexample: the claim says the G-Tech latitude transform
yields `60 * (d / 10000)`; at raw value `10000` the code yields `1`,
not `60`. -/
theorem C1_counterexample :
    ∃ t, valueMap ConverterId.gTechFanatic ("latitude") = some t ∧
      t (some 10000) = some 1 ∧
      ¬ t (some 10000) = some (60 * ((10000 : ℚ) / 10000)) := by
  refine ⟨_, rfl, by simp only [Option.map_some', Option.some.injEq]; norm_num, ?_⟩
  intro h
  simp only [Option.map_some', Option.some.injEq] at h
  norm_num at h

/-- Claim C1, amended: the G-Tech Fanatic converter maps a raw latitude
value parsing to decimal `d` to `d / 10000` and a raw longitude value to
`-(d / 10000)` — the `/ 10000` scaling and the longitude sign flip are
applied, but the `× 60` degree-to-minutes factor of the default
transforms is not (the override replaces the default transform entirely).
A parse failure makes either transform raise. -/
theorem C1_amended (d : ℚ) :
    ∃ tlat tlong,
      valueMap ConverterId.gTechFanatic ("latitude") = some tlat ∧
      valueMap ConverterId.gTechFanatic ("longitude") = some tlong ∧
      tlat (some d) = some (d / 10000) ∧
      tlong (some d) = some (-(d / 10000)) ∧
      tlat none = none ∧ tlong none = none := by
  refine ⟨_, _, rfl, rfl, rfl, ?_, rfl, rfl⟩
  simp only [Option.map_some', Option.some.injEq]
  ring

/-- Claim C10: under the default transforms (RaceChrono and TrackMaster)
a `LatAcc`/`LongAcc` cell that fails to parse is silently mapped to the
decimal `0` inside `_decimal_or_default`: no warning is printed and the
`"-0"` sentinel path of `_map_value` is not taken.  Under G-Tech Fanatic
a malformed `LatAcc` cell likewise yields the negation of `0`, not the
sentinel. -/
theorem C10_silent_default :
    (∃ t, valueMap ConverterId.raceChrono ("LatAcc") = some t ∧
       mapValue ("LatAcc", t) none = VboVal.num 0 ∧
       mapValueWarns ("LatAcc", t) none = false) ∧
    (∃ t, valueMap ConverterId.raceChrono ("LongAcc") = some t ∧
       mapValue ("LongAcc", t) none = VboVal.num 0 ∧
       mapValueWarns ("LongAcc", t) none = false) ∧
    (∃ t, valueMap ConverterId.trackMaster ("LatAcc") = some t ∧
       mapValue ("LatAcc", t) none = VboVal.num 0 ∧
       mapValueWarns ("LatAcc", t) none = false) ∧
    (∃ t, valueMap ConverterId.trackMaster ("LongAcc") = some t ∧
       mapValue ("LongAcc", t) none = VboVal.num 0 ∧
       mapValueWarns ("LongAcc", t) none = false) ∧
    (∃ t, valueMap ConverterId.gTechFanatic ("LatAcc") = some t ∧
       t none = some (-(0 : ℚ)) ∧
       mapValue ("LatAcc", t) none = VboVal.num 0 ∧
       mapValueWarns ("LatAcc", t) none = false) ∧
    (∃ t, valueMap ConverterId.gTechFanatic ("LongAcc") = some t ∧
       mapValue ("LongAcc", t) none = VboVal.num 0 ∧
       mapValueWarns ("LongAcc", t) none = false) := by
  refine ⟨⟨_, rfl, rfl, rfl⟩, ⟨_, rfl, rfl, rfl⟩, ⟨_, rfl, rfl, rfl⟩,
    ⟨_, rfl, rfl, rfl⟩, ⟨_, rfl, rfl, ?_, rfl⟩, ⟨_, rfl, rfl, rfl⟩⟩
  simp only [mapValue, Option.getD_none, neg_zero]

section DedupLemmas

/-- The deduplication loop never emits two equal adjacent rows, and its
first output differs from the incoming `last_row`. -/
theorem dedupAdj_chain (last : Option (List VboVal)) (l : List (List VboVal)) :
    List.Chain' (fun a b => ¬ a = b) (dedupAdj last l) ∧
    ∀ y, (dedupAdj last l).head? = some y → ¬ some y = last := by
  induction l generalizing last with
  | nil =>
    refine ⟨List.chain'_nil, ?_⟩
    intro y h
    simp [dedupAdj] at h
  | cons r rest ih =>
    by_cases h : some r = last
    · simp only [dedupAdj, if_pos h]
      exact (ih last)
    · simp only [dedupAdj, if_neg h]
      constructor
      · refine ((ih (some r)).1).cons' ?_
        intro y hy he
        exact (ih (some r)).2 y hy (by rw [he])
      · intro y hy
        simp only [List.head?_cons, Option.some.injEq] at hy
        subst hy
        exact h

/-- Every row emitted by the deduplication loop is one of the input rows. -/
theorem dedupAdj_subset (last : Option (List VboVal)) (l : List (List VboVal)) :
    ∀ x ∈ dedupAdj last l, x ∈ l := by
  induction l generalizing last with
  | nil => simp [dedupAdj]
  | cons r rest ih =>
    intro x hx
    by_cases h : some r = last
    · simp only [dedupAdj, if_pos h] at hx
      exact List.mem_cons_of_mem _ (ih last x hx)
    · simp only [dedupAdj, if_neg h] at hx
      rcases List.mem_cons.mp hx with rfl | hx
      · exact List.mem_cons_self _ _
      · exact List.mem_cons_of_mem _ (ih (some r) x hx)

end DedupLemmas

/-- Claim C5: `convert` discards each built row that equals the
immediately preceding emitted row, so no two adjacent output rows are
equal, and an input of exactly two raw rows building the same canonical
row yields exactly one output row. -/
theorem C5_adjacent_dedup (c : ConverterId) (T : DataFrame (Option ℚ)) :
    ∃ out, convert c T = some out ∧
      out.data = dedupAdj none (T.data.map (fun r => builtRow c T.head r)) ∧
      List.Chain' (fun a b => ¬ a = b) out.data ∧
      (∀ r1 r2, T.data = [r1, r2] → builtRow c T.head r1 = builtRow c T.head r2 →
        out.data = [builtRow c T.head r1]) := by
  refine ⟨_, convert_eq c T, rfl, (dedupAdj_chain none _).1, ?_⟩
  intro r1 r2 hT he
  show dedupAdj none (T.data.map (fun r => builtRow c T.head r)) = _
  rw [hT]
  simp only [List.map_cons, List.map_nil, ← he, dedupAdj]
  simp [dedupAdj]

/-- A two-row table recognized by the RaceChrono profile, whose rows are
identical; used to exercise the conversion theorems. -/
def exampleTbl : DataFrame (Option ℚ) :=
  { head := ["Timestamp (s)"], data := [[some 1], [some 1]], info := [], units := [] }

/-- Witness for C5: on a concrete two-row table whose rows build the same
canonical row, `convert` emits exactly one row. -/
theorem C5_witness :
    ∃ out, convert ConverterId.raceChrono exampleTbl = some out ∧
      out.data = [builtRow ConverterId.raceChrono exampleTbl.head [some 1]] := by
  obtain ⟨out, h1, _h2, _h3, h4⟩ := C5_adjacent_dedup ConverterId.raceChrono exampleTbl
  exact ⟨out, h1, h4 [some 1] [some 1] rfl rfl⟩

/-- Claim C6: when the resolved channels lack `satellites`, `convert`
prepends it to the header and a constant `5` to every output row; when
`satellites` is resolved, no synthetic column is added. -/
theorem C6_satellites_fudge (c : ConverterId) (T : DataFrame (Option ℚ)) :
    ∃ out, convert c T = some out ∧
      (¬ ("satellites") ∈ supportedNames c T.head →
        out.head = "satellites" :: supportedNames c T.head ∧
        ∀ row ∈ out.data, row.head? = some (VboVal.num 5)) ∧
      (("satellites") ∈ supportedNames c T.head →
        out.head = supportedNames c T.head ∧
        ∀ row ∈ out.data, ∃ raw ∈ T.data,
          row = mapValues raw ((getMappers c (T.head.map (mapName c))).getD [])) := by
  refine ⟨_, convert_eq c T, ?_, ?_⟩
  · intro hns
    constructor
    · show headOut c T.head = _
      rw [headOut, if_neg hns]
    · intro row hrow
      have hb := dedupAdj_subset none _ row hrow
      obtain ⟨raw, _hraw, hbuilt⟩ := List.mem_map.mp hb
      rw [← hbuilt, builtRow, if_neg hns]
      rfl
  · intro hs
    constructor
    · show headOut c T.head = _
      rw [headOut, if_pos hs]
    · intro row hrow
      have hb := dedupAdj_subset none _ row hrow
      obtain ⟨raw, hraw, hbuilt⟩ := List.mem_map.mp hb
      refine ⟨raw, hraw, ?_⟩
      rw [← hbuilt, builtRow, if_pos hs]
      rfl

/-- Witness for C6: the G-Tech profile resolves no `satellites` channel,
so the header gains a leading `satellites` and every row a leading `5`. -/
theorem C6_witness :
    ∃ out, convert ConverterId.gTechFanatic exampleTbl = some out ∧
      out.head = "satellites" :: supportedNames ConverterId.gTechFanatic exampleTbl.head ∧
      ∀ row ∈ out.data, row.head? = some (VboVal.num 5) := by
  obtain ⟨out, h1, h2, _h3⟩ := C6_satellites_fudge ConverterId.gTechFanatic exampleTbl
  obtain ⟨ha, hb⟩ := h2 (by decide)
  exact ⟨out, h1, ha, hb⟩

/-- Claim C7: a failing cell transform is non-fatal: the warning is
emitted, the `"-0"` sentinel is substituted for that cell, `convert`
still completes on the whole table, and every zipped (cell, mapper) pair
still contributes exactly one output value whether or not it fails. -/
theorem C7_cell_failure_nonfatal (c : ConverterId) (T : DataFrame (Option ℚ))
    (m : String × Transform) (cell : Option ℚ) (hfail : m.2 cell = none) :
    mapValue m cell = VboVal.err ∧
    mapValueWarns m cell = true ∧
    (∃ out, convert c T = some out ∧
      out.data = dedupAdj none (T.data.map (fun r => builtRow c T.head r))) ∧
    (∀ (cells : List (Option ℚ)) (ms : List (Option (String × Transform))),
      (mapValues cells ms).length =
        ((cells.zip ms).filter (fun pm => pm.2.isSome)).length) := by
  refine ⟨?_, ?_, ⟨_, convert_eq c T, rfl⟩, ?_⟩
  · unfold mapValue
    rw [hfail]
  · unfold mapValueWarns
    rw [hfail]
    rfl
  · intro cells ms
    unfold mapValues
    generalize cells.zip ms = l
    induction l with
    | nil => rfl
    | cons pm rest ih =>
      rcases hpm : pm.2 with _ | mm <;>
        simp [List.filterMap_cons, List.filter_cons, hpm, ih]

/-- Model of `Converter.recognizes`: every key of `_base_map` occurs in the header
row (Python `all([item in row for item in self._base_map.keys()])`). -/
def recognizes (c : ConverterId) (row : List String) : Bool :=
  ((baseMap c).map Prod.fst).all (fun item => item ∈ row)

/-- The fixed converter list of `find_converter`, in declaration order. -/
def converterOrder : List ConverterId :=
  [ConverterId.raceChrono, ConverterId.gTechFanatic, ConverterId.trackMaster]

/-- Model of `find_converter`: the first converter recognizing the header. -/
def find_converter (header : List String) : Option ConverterId :=
  converterOrder.find? (fun c => recognizes c header)

/-- The spec's recognition condition: an order-independent subset test of
the `base_map` keys against the header. -/
def keysSubset (c : ConverterId) (header : List String) : Prop :=
  ∀ k ∈ (baseMap c).map Prod.fst, k ∈ header

instance (c : ConverterId) (header : List String) : Decidable (keysSubset c header) := by
  unfold keysSubset
  infer_instance

theorem recognizes_iff (c : ConverterId) (header : List String) :
    recognizes c header = true ↔ keysSubset c header := by
  unfold recognizes keysSubset
  simp

theorem find_converter_eq (header : List String) :
    find_converter header =
      (if recognizes ConverterId.raceChrono header then some ConverterId.raceChrono
       else if recognizes ConverterId.gTechFanatic header then some ConverterId.gTechFanatic
       else if recognizes ConverterId.trackMaster header then some ConverterId.trackMaster
       else none) := by
  simp only [find_converter, converterOrder]
  cases h1 : recognizes ConverterId.raceChrono header <;>
    cases h2 : recognizes ConverterId.gTechFanatic header <;>
      cases h3 : recognizes ConverterId.trackMaster header <;>
        simp [List.find?_cons, h1, h2, h3]

/-- Claim C4: recognition walks the fixed ordered converter list and
returns the first whose `base_map` keys are all contained in the header
(an order-independent subset test), and `none` when no converter's keys
are all contained. -/
theorem C4_recognition (header : List String) :
    (find_converter header =
      (if keysSubset ConverterId.raceChrono header then some ConverterId.raceChrono
       else if keysSubset ConverterId.gTechFanatic header then some ConverterId.gTechFanatic
       else if keysSubset ConverterId.trackMaster header then some ConverterId.trackMaster
       else none)) ∧
    (find_converter header = none ↔ ∀ c, ¬ keysSubset c header) := by
  have he : ∀ c, (recognizes c header = true) = keysSubset c header :=
    fun c => propext (recognizes_iff c header)
  constructor
  · rw [find_converter_eq]
    simp only [he]
  · rw [find_converter_eq]
    simp only [he]
    constructor
    · intro h
      split_ifs at h with a1 a2 a3
      intro cc
      cases cc
      · exact a1
      · exact a2
      · exact a3
    · intro h
      rw [if_neg (h ConverterId.raceChrono), if_neg (h ConverterId.gTechFanatic),
        if_neg (h ConverterId.trackMaster)]

/-- Witness for C7: the identity `time` transform fails on a cell whose
raw string does not parse; the sentinel is produced, the warning is
flagged, and the conversion of a concrete table still succeeds. -/
theorem C7_witness :
    mapValue (("time", fun p => p) : String × Transform) none = VboVal.err ∧
    mapValueWarns (("time", fun p => p) : String × Transform) none = true ∧
    ∃ out, convert ConverterId.gTechFanatic exampleTbl = some out := by
  obtain ⟨h1, h2, ⟨out, h3, _⟩, _⟩ :=
    C7_cell_failure_nonfatal ConverterId.gTechFanatic exampleTbl
      ("time", fun p => p) none rfl
  exact ⟨h1, h2, out, h3⟩

/-- Python `int()` on a `Decimal`: truncation toward zero. -/
def pyIntTrunc (q : ℚ) : ℤ := if 0 ≤ q then ⌊q⌋ else ⌈q⌉

/-- Python `"%02d"` applied to a non-negative integer: zero-pad to 2 digits. -/
def pad2 (n : ℕ) : String := if n < 10 then "0" ++ toString n else toString n

/-- Python `"%02d"` applied to a possibly negative integer: a negative value
keeps its sign and already fills the width. -/
def padInt2 (z : ℤ) : String := if z < 0 then toString z else pad2 z.toNat

/-- Python `(x).quantize(Decimal("0.01"), rounding=ROUND_HALF_UP).shift(2)` as
an integer: 100·x rounded to the nearest integer, ties away from zero. -/
def roundHalfUpCenti (x : ℚ) : ℤ :=
  if 0 ≤ x then ⌊x * 100 + 1 / 2⌋ else -⌊-(x * 100) + 1 / 2⌋

/-- Model of `format_vbo._seconds_to_hms`.  `rel_time` is the time of day reached
`int(secs)` seconds after `datetime.min`, so hours/minutes/seconds come
from `int(secs) mod 86400`; `datetime.min + timedelta(seconds=s)` raises
`OverflowError` for negative `s`, modelled by `none`.  The fractional
part is rounded half-up to centiseconds and printed with `"%02d"`. -/
def seconds_to_hms (secs : ℚ) : Option String :=
  if pyIntTrunc secs < 0 then none
  else
    some (pad2 ((pyIntTrunc secs).toNat % 86400 / 3600) ++
          pad2 ((pyIntTrunc secs).toNat % 86400 % 3600 / 60) ++
          pad2 ((pyIntTrunc secs).toNat % 86400 % 60) ++ "." ++
          padInt2 (roundHalfUpCenti (secs - (pyIntTrunc secs : ℚ))))

/-- Modelled from the spec's words for the time formatter: hours, minutes
and seconds from the integer part of the seconds-of-day value,
centiseconds from the fractional part rounded half-up to 2 places. -/
def specHMS (q : ℚ) : String :=
  pad2 (⌊q⌋.toNat / 3600) ++ pad2 (⌊q⌋.toNat % 3600 / 60) ++
    pad2 (⌊q⌋.toNat % 60) ++ "." ++ pad2 ⌊(q - ⌊q⌋) * 100 + 1 / 2⌋.toNat

theorem seconds_to_hms_at_3661005 :
    seconds_to_hms ((3661005 : ℚ) / 1000) = some ("010101.01") := by
  have hpy : pyIntTrunc ((3661005 : ℚ) / 1000) = 3661 := by
    unfold pyIntTrunc
    rw [if_pos (by norm_num : (0:ℚ) ≤ (3661005 : ℚ) / 1000)]
    norm_num
  have hcc : roundHalfUpCenti ((3661005 : ℚ) / 1000 - ((3661 : ℤ) : ℚ)) = 1 := by
    unfold roundHalfUpCenti
    rw [if_pos (by norm_num)]
    norm_num
  unfold seconds_to_hms
  rw [hpy, hcc, if_neg (by norm_num : ¬ (3661 : ℤ) < 0)]
  rfl

theorem seconds_to_hms_at_3599999 :
    seconds_to_hms ((3599999 : ℚ) / 1000) = some ("005959.100") := by
  have hpy : pyIntTrunc ((3599999 : ℚ) / 1000) = 3599 := by
    unfold pyIntTrunc
    rw [if_pos (by norm_num : (0:ℚ) ≤ (3599999 : ℚ) / 1000)]
    norm_num
  have hcc : roundHalfUpCenti ((3599999 : ℚ) / 1000 - ((3599 : ℤ) : ℚ)) = 100 := by
    unfold roundHalfUpCenti
    rw [if_pos (by norm_num)]
    norm_num
  unfold seconds_to_hms
  rw [hpy, hcc, if_neg (by norm_num : ¬ (3599 : ℤ) < 0)]
  rfl

/-- Claim C3 counterexample: the decimal value `3661.005` does *not*
format to `"010101.00"`: its `0.005` fraction is a tie, which
`ROUND_HALF_UP` rounds away from zero, giving `"010101.01"`. -/
theorem C3_counterexample :
    seconds_to_hms ((3661005 : ℚ) / 1000) = some ("010101.01") ∧
    ¬ seconds_to_hms ((3661005 : ℚ) / 1000) = some ("010101.00") := by
  refine ⟨seconds_to_hms_at_3661005, ?_⟩
  rw [seconds_to_hms_at_3661005]
  intro h
  simp only [Option.some.injEq] at h
  exact absurd h (by decide)

/-- Claim C3, amended: for a seconds-of-day value `0 ≤ q < 86400` the
formatter emits hours/minutes/seconds from the integer part and the
fractional part rounded half-up (ties away from zero) to centiseconds;
in particular `3661.005` formats to `"010101.01"` (the `.005` tie rounds
up), and `3599.999` has its centiseconds rounded up — to `100`, emitted
as `"005959.100"`. -/
theorem C3_amended (q : ℚ) (h0 : 0 ≤ q) (h1 : q < 86400) :
    seconds_to_hms q = some (specHMS q) ∧
    seconds_to_hms ((3661005 : ℚ) / 1000) = some ("010101.01") ∧
    seconds_to_hms ((3599999 : ℚ) / 1000) = some ("005959.100") := by
  refine ⟨?_, seconds_to_hms_at_3661005, seconds_to_hms_at_3599999⟩
  have hpy : pyIntTrunc q = ⌊q⌋ := if_pos h0
  have hf0 : (0 : ℤ) ≤ ⌊q⌋ := Int.floor_nonneg.mpr h0
  have hf1 : ⌊q⌋ < 86400 := by
    rw [Int.floor_lt]
    push_cast
    exact h1
  have hmod : ⌊q⌋.toNat % 86400 = ⌊q⌋.toNat := by omega
  have hfrac : (0 : ℚ) ≤ q - (⌊q⌋ : ℚ) := sub_nonneg.mpr (Int.floor_le q)
  have hcc : roundHalfUpCenti (q - (⌊q⌋ : ℚ)) = ⌊(q - ⌊q⌋) * 100 + 1 / 2⌋ := by
    unfold roundHalfUpCenti
    rw [if_pos hfrac]
  have hccpos : (0 : ℤ) ≤ ⌊(q - ⌊q⌋) * 100 + 1 / 2⌋ := by
    apply Int.floor_nonneg.mpr
    positivity
  unfold seconds_to_hms specHMS
  rw [hpy, hcc, if_neg (by omega : ¬ ⌊q⌋ < 0), hmod]
  unfold padInt2
  rw [if_neg (by omega : ¬ ⌊(q - ⌊q⌋) * 100 + 1 / 2⌋ < 0)]

/-- Witness for C3 (amended): the theorem applied at the concrete input
`3661.005`, whose formatted value evaluates to `"010101.01"`. -/
theorem C3_witness :
    (0 : ℚ) ≤ (3661005 : ℚ) / 1000 ∧ (3661005 : ℚ) / 1000 < 86400 ∧
    seconds_to_hms ((3661005 : ℚ) / 1000) = some (specHMS ((3661005 : ℚ) / 1000)) := by
  refine ⟨by norm_num, by norm_num, ?_⟩
  exact (C3_amended ((3661005 : ℚ) / 1000) (by norm_num) (by norm_num)).1

/-- Python `list.index` (and the index of `max(..., key=...)`): the
index of the first matching element, `none` (a `ValueError`) when there
is none. -/
def firstIdxSat {α : Type} (p : α → Bool) : List α → Option ℕ
  | [] => none
  | a :: l => if p a then some 0 else (firstIdxSat p l).map (fun i => i + 1)

/-- The `_interpolate` helper of `interpolate_vbo`, mapped over
`range(1, ceil(time_diff / resolution))`: `step = k + 1`,
`offset = step * resolution`, `fraction = offset / time_diff`; the time
column gets `val_a + offset`, the others `fraction.fma(val_b - val_a,
val_a)`, i.e. `fraction * (val_b - val_a) + val_a`. -/
def interpGap (ti : ℕ) (res : ℚ) (a b : List ℚ) : List (List ℚ) :=
  (List.range ((⌈(b.getD ti 0 - a.getD ti 0) / res⌉).toNat - 1)).map (fun (k : ℕ) =>
    (a.zip b).enum.map (fun ip =>
      if ip.1 = ti then ip.2.1 + ((k : ℚ) + 1) * res
      else ((k : ℚ) + 1) * res / (b.getD ti 0 - a.getD ti 0) * (ip.2.2 - ip.2.1) + ip.2.1))

/-- The row loop of `interpolate_vbo`: before each row (except the
first) insert the interpolated rows against the previous row, then the
original row itself.  (The `Decimal(value)` re-parse of each row is the
identity on rational cells.) -/
def interpRows (ti : ℕ) (res : ℚ) : Option (List ℚ) → List (List ℚ) → List (List ℚ)
  | _, [] => []
  | none, r :: rest => r :: interpRows ti res (some r) rest
  | some last, r :: rest => interpGap ti res last r ++ r :: interpRows ti res (some r) rest

/-- Model of `interpolate_vbo`; `header().index("time")` raises when the table
has no `time` channel (`none`). -/
def interpolate_vbo (T : DataFrame ℚ) (res : ℚ) : Option (DataFrame ℚ) :=
  match firstIdxSat (fun n => n == "time") T.head with
  | none => none
  | some ti =>
    some { head := T.head, data := interpRows ti res none T.data,
           info := T.info, units := T.units }

/-- Modelled from the spec's words for one gap: `ceil(Δt / resolution) -
1` synthesized rows; the `k`-th (1-based) has time `A.time + k·res` and
non-time fields `A_j + (k·res / Δt) · (B_j − A_j)`. -/
def specGap (ti : ℕ) (res : ℚ) (a b : List ℚ) : List (List ℚ) :=
  (List.range ((⌈(b.getD ti 0 - a.getD ti 0) / res⌉).toNat - 1)).map (fun (k : ℕ) =>
    (List.range a.length).map (fun (j : ℕ) =>
      if j = ti then a.getD ti 0 + ((k : ℚ) + 1) * res
      else a.getD j 0 + ((k : ℚ) + 1) * res / (b.getD ti 0 - a.getD ti 0) *
        (b.getD j 0 - a.getD j 0)))

section InterpolationLemmas

theorem interpRows_some (ti : ℕ) (res : ℚ) (last : List ℚ) (rows : List (List ℚ)) :
    interpRows ti res (some last) rows =
      ((last :: rows).zip rows).flatMap (fun ab => interpGap ti res ab.1 ab.2 ++ [ab.2]) := by
  induction rows generalizing last with
  | nil => rfl
  | cons r rest ih =>
    show interpGap ti res last r ++ r :: interpRows ti res (some r) rest = _
    rw [ih r, List.zip_cons_cons, List.flatMap_cons]
    simp [List.append_assoc]

theorem interpRows_none (ti : ℕ) (res : ℚ) (rows : List (List ℚ)) :
    interpRows ti res none rows =
      (match rows with
        | [] => []
        | r0 :: rest =>
          r0 :: ((rows.zip rest).flatMap (fun ab => interpGap ti res ab.1 ab.2 ++ [ab.2]))) := by
  cases rows with
  | nil => rfl
  | cons r0 rest =>
    show r0 :: interpRows ti res (some r0) rest = _
    rw [interpRows_some]

theorem interpGap_eq_specGap (ti : ℕ) (res : ℚ) (a b : List ℚ)
    (hab : a.length = b.length) (hti : ti < a.length) :
    interpGap ti res a b = specGap ti res a b := by
  unfold interpGap specGap
  apply List.map_congr_left
  intro k _hk
  apply List.ext_getElem
  · simp [hab, Nat.min_self]
  · intro j h1 h2
    have hja : j < a.length := by
      simpa using h2
    have hjb : j < b.length := hab ▸ hja
    have htib : ti < b.length := hab ▸ hti
    simp only [List.getElem_map, List.getElem_enum, List.getElem_zip, List.getElem_range,
      List.getD_eq_getElem a 0 hja, List.getD_eq_getElem b 0 hjb,
      List.getD_eq_getElem a 0 hti, List.getD_eq_getElem b 0 htib]
    by_cases hj : j = ti
    · subst hj
      simp
    · simp only [if_neg hj]
      ring

theorem specGap_length (ti : ℕ) (res : ℚ) (a b : List ℚ) (hres : 0 < res)
    (hgt : res < b.getD ti 0 - a.getD ti 0) :
    ((specGap ti res a b).length : ℤ) = ⌈(b.getD ti 0 - a.getD ti 0) / res⌉ - 1 := by
  unfold specGap
  rw [List.length_map, List.length_range]
  have h2 : (1 : ℤ) < ⌈(b.getD ti 0 - a.getD ti 0) / res⌉ := by
    apply Int.lt_ceil.mpr
    push_cast
    rw [lt_div_iff₀ hres]
    linarith
  omega

theorem interpRows_sublist (ti : ℕ) (res : ℚ) :
    ∀ (last : Option (List ℚ)) (rows : List (List ℚ)),
      rows.Sublist (interpRows ti res last rows) := by
  intro last rows
  induction rows generalizing last with
  | nil => cases last <;> exact List.nil_sublist _
  | cons r rest ih =>
    cases last with
    | none => exact List.Sublist.cons₂ r (ih (some r))
    | some l =>
      exact List.Sublist.trans (List.Sublist.cons₂ r (ih (some r)))
        (List.sublist_append_right _ _)

end InterpolationLemmas

/-- Claim C2: on a table with a `time` channel and positive resolution,
`interpolate_vbo` inserts between each consecutive row pair exactly
`ceil(Δt / res) - 1` rows (when `Δt > res`) whose time field is
`A.time + k·res` and whose other fields are linearly interpolated with
fraction `k·res / Δt`, and keeps all original rows verbatim in order. -/
theorem C2_interpolation (head : List String) (rows : List (List ℚ))
    (info : List (List String)) (units : List (String × String))
    (res : ℚ) (ti : ℕ) (hres : 0 < res)
    (hti : firstIdxSat (fun n => n == "time") head = some ti)
    (htilt : ti < head.length)
    (hlen : ∀ r ∈ rows, r.length = head.length) :
    ∃ out, interpolate_vbo ⟨head, rows, info, units⟩ res = some out ∧
      out.data = rows.take 1 ++
        ((rows.zip rows.tail).flatMap (fun ab => specGap ti res ab.1 ab.2 ++ [ab.2])) ∧
      (∀ ab ∈ rows.zip rows.tail,
        res < ab.2.getD ti 0 - ab.1.getD ti 0 →
          ((specGap ti res ab.1 ab.2).length : ℤ) =
            ⌈(ab.2.getD ti 0 - ab.1.getD ti 0) / res⌉ - 1) ∧
      rows.Sublist out.data := by
  refine ⟨{ head := head, data := interpRows ti res none rows,
            info := info, units := units }, ?_, ?_, ?_, ?_⟩
  · simp only [interpolate_vbo, hti]
  · show interpRows ti res none rows = _
    rw [interpRows_none]
    cases rows with
    | nil => rfl
    | cons r0 rest =>
      show r0 :: _ = _ ++ _
      rw [show List.take 1 (r0 :: rest) = [r0] from rfl, List.singleton_append]
      congr 1
      apply List.flatMap_congr
      intro ab hab
      have hmem := List.of_mem_zip hab
      have h1 : ab.1.length = head.length := hlen ab.1 hmem.1
      have h2 : ab.2.length = head.length :=
        hlen ab.2 (List.mem_cons_of_mem r0 hmem.2)
      rw [interpGap_eq_specGap ti res ab.1 ab.2 (by rw [h1, h2]) (by rw [h1]; exact htilt)]
  · intro ab _hab hgt
    exact specGap_length ti res ab.1 ab.2 hres hgt
  · exact interpRows_sublist ti res none rows

/-- Witness for C2: the spec's own density example — resolution `0.10`,
samples at times `0.00` and `0.35` — yields the two originals plus the
block of `ceil(0.35/0.10) - 1 = 3` synthesized rows. -/
theorem C2_witness :
    ∃ out, interpolate_vbo ⟨["time"], [[(0:ℚ)], [(35:ℚ)/100]], [], []⟩ ((1:ℚ)/10) = some out ∧
      out.data = [(0:ℚ)] ::
        (([[(0:ℚ)], [(35:ℚ)/100]].zip [[(35:ℚ)/100]]).flatMap
          (fun ab => specGap 0 ((1:ℚ)/10) ab.1 ab.2 ++ [ab.2])) ∧
      ((specGap 0 ((1:ℚ)/10) [(0:ℚ)] [(35:ℚ)/100]).length : ℤ) =
        ⌈((35:ℚ)/100 - 0) / ((1:ℚ)/10)⌉ - 1 ∧
      [[(0:ℚ)], [(35:ℚ)/100]].Sublist out.data := by
  obtain ⟨out, h1, h2, h3, h4⟩ :=
    C2_interpolation ["time"] [[(0:ℚ)], [(35:ℚ)/100]] [] [] ((1:ℚ)/10) 0
      (by norm_num) rfl (by decide)
      (by intro r hr; fin_cases hr <;> rfl)
  refine ⟨out, h1, by rw [h2]; rfl, ?_, h4⟩
  exact h3 ([(0:ℚ)], [(35:ℚ)/100]) (by simp) (by norm_num)

/-- The record cleaning of `read_csv`: drop records with no fields and
strip the whitespace around every remaining field. -/
def cleanRows (records : List (List String)) : List (List String) :=
  (records.filter (fun r => 0 < r.length)).map (fun r => r.map String.trim)

/-- The maximal field count over the cleaned records (`max` seeded by 0;
`read_csv` only consults it for a non-empty record list). -/
def maxFieldCount (rows : List (List String)) : ℕ :=
  (rows.map List.length).foldl max 0

/-- Model of `read_csv`: `max(rows, key=len)` picks the first record of maximal
field count as the header (raising `ValueError`, here `none`, on an
empty record list); records before it become info rows, records from it
on — minus the ones equal to the header — become data rows. -/
def read_csv (records : List (List String)) : Option (DataFrame String) :=
  match firstIdxSat (fun r => r.length == maxFieldCount (cleanRows records))
      (cleanRows records) with
  | none => none
  | some i =>
    some { head := (cleanRows records).getD i [],
           data := ((cleanRows records).drop i).filter
             (fun r => ¬ r = (cleanRows records).getD i []),
           info := (cleanRows records).take i,
           units := [] }

section ReadCsvLemmas

theorem le_foldl_max (l : List ℕ) : ∀ (a : ℕ), a ≤ l.foldl max a ∧ ∀ x ∈ l, x ≤ l.foldl max a := by
  induction l with
  | nil =>
    intro a
    exact ⟨le_refl a, by simp⟩
  | cons y t ih =>
    intro a
    constructor
    · exact le_trans (le_max_left a y) (ih (max a y)).1
    · intro x hx
      rcases List.mem_cons.mp hx with rfl | hx
      · exact le_trans (le_max_right a x) (ih (max a x)).1
      · exact (ih (max a y)).2 x hx

theorem foldl_max_mem (l : List ℕ) : ∀ (a : ℕ), l.foldl max a = a ∨ l.foldl max a ∈ l := by
  induction l with
  | nil =>
    intro a
    left
    rfl
  | cons y t ih =>
    intro a
    rcases ih (max a y) with h | h
    · rcases max_choice a y with hm | hm
      · left
        show t.foldl max (max a y) = a
        rw [h, hm]
      · right
        show t.foldl max (max a y) ∈ y :: t
        rw [h, hm]
        exact List.mem_cons_self y t
    · right
      exact List.mem_cons_of_mem y h

theorem firstIdxSat_spec {α : Type} (p : α → Bool) (l : List α) (i : ℕ) (d : α)
    (h : firstIdxSat p l = some i) :
    i < l.length ∧ p (l.getD i d) = true ∧ ∀ j, j < i → p (l.getD j d) = false := by
  induction l generalizing i with
  | nil => simp [firstIdxSat] at h
  | cons a t ih =>
    by_cases hp : p a
    · rw [firstIdxSat, if_pos hp] at h
      injection h with h
      subst h
      exact ⟨Nat.succ_pos _, hp, fun j hj => absurd hj (Nat.not_lt_zero j)⟩
    · rw [firstIdxSat, if_neg hp] at h
      simp only [Bool.not_eq_true] at hp
      rcases ht : firstIdxSat p t with _ | j
      · rw [ht] at h
        simp at h
      · rw [ht] at h
        simp only [Option.map_some', Option.some.injEq] at h
        subst h
        obtain ⟨h1, h2, h3⟩ := ih j ht
        refine ⟨Nat.succ_lt_succ h1, h2, ?_⟩
        intro m hm
        cases m with
        | zero => exact hp
        | succ m => exact h3 m (Nat.lt_of_succ_lt_succ hm)

theorem firstIdxSat_isSome {α : Type} (p : α → Bool) (l : List α) (x : α)
    (hx : x ∈ l) (hp : p x = true) : (firstIdxSat p l).isSome = true := by
  induction l with
  | nil => cases hx
  | cons a t ih =>
    by_cases hpa : p a
    · simp [firstIdxSat, hpa]
    · rcases List.mem_cons.mp hx with rfl | hx
      · exact absurd hp hpa
      · rw [firstIdxSat, if_neg hpa]
        have hs := ih hx
        rcases ht : firstIdxSat p t with _ | j
        · rw [ht] at hs
          simp at hs
        · simp

end ReadCsvLemmas

/-- Claim C8: `read_csv` fails on an empty cleaned record set; otherwise
it picks as header the first record of maximal field count, makes the
records before it the comments, and drops from the data every record
equal to the header. -/
theorem C8_header_selection (records : List (List String)) :
    (cleanRows records = [] → read_csv records = none) ∧
    (¬ cleanRows records = [] →
      ∃ out i, read_csv records = some out ∧
        i < (cleanRows records).length ∧
        out.head = (cleanRows records).getD i [] ∧
        (∀ r ∈ cleanRows records, r.length ≤ out.head.length) ∧
        (∀ j, j < i → ((cleanRows records).getD j []).length < out.head.length) ∧
        out.info = (cleanRows records).take i ∧
        out.data = ((cleanRows records).drop i).filter (fun r => ¬ r = out.head)) := by
  constructor
  · intro h
    unfold read_csv
    rw [h]
    rfl
  · intro hne
    obtain ⟨r0, hr0⟩ := List.exists_mem_of_ne_nil (cleanRows records) hne
    have hex : ∃ x ∈ cleanRows records,
        (fun r => r.length == maxFieldCount (cleanRows records)) x = true := by
      rcases foldl_max_mem ((cleanRows records).map List.length) 0 with h | h
      · refine ⟨r0, hr0, ?_⟩
        have hle : r0.length ≤ maxFieldCount (cleanRows records) :=
          (le_foldl_max ((cleanRows records).map List.length) 0).2 r0.length
            (List.mem_map_of_mem List.length hr0)
        have hz : maxFieldCount (cleanRows records) = 0 := h
        simp only [beq_iff_eq]
        omega
      · obtain ⟨r, hrmem, hrlen⟩ := List.mem_map.mp h
        refine ⟨r, hrmem, ?_⟩
        simp only [beq_iff_eq]
        exact hrlen
    obtain ⟨x, hx, hpx⟩ := hex
    have hs := firstIdxSat_isSome (fun r => r.length == maxFieldCount (cleanRows records))
      (cleanRows records) x hx hpx
    rcases hfi : firstIdxSat (fun r => r.length == maxFieldCount (cleanRows records))
        (cleanRows records) with _ | i
    · rw [hfi] at hs
      simp at hs
    obtain ⟨h1, h2, h3⟩ := firstIdxSat_spec
      (fun r => r.length == maxFieldCount (cleanRows records)) (cleanRows records) i [] hfi
    have hmax : ((cleanRows records).getD i []).length = maxFieldCount (cleanRows records) := by
      simpa only [beq_iff_eq] using h2
    refine ⟨{ head := (cleanRows records).getD i [],
              data := ((cleanRows records).drop i).filter
                (fun r => ¬ r = (cleanRows records).getD i []),
              info := (cleanRows records).take i, units := [] }, i, ?_, h1, rfl, ?_, ?_, rfl, rfl⟩
    · unfold read_csv
      rw [hfi]
    · intro r hrm
      have hle : r.length ≤ maxFieldCount (cleanRows records) :=
        (le_foldl_max ((cleanRows records).map List.length) 0).2 r.length
          (List.mem_map_of_mem List.length hrm)
      show r.length ≤ ((cleanRows records).getD i []).length
      omega
    · intro j hj
      have hjlt : j < (cleanRows records).length := lt_trans hj h1
      have hmem : (cleanRows records).getD j [] ∈ cleanRows records := by
        rw [List.getD_eq_getElem (cleanRows records) [] hjlt]
        exact List.getElem_mem hjlt
      have hle : ((cleanRows records).getD j []).length ≤ maxFieldCount (cleanRows records) :=
        (le_foldl_max ((cleanRows records).map List.length) 0).2
          ((cleanRows records).getD j []).length
          (List.mem_map_of_mem List.length hmem)
      have hne2 : ((cleanRows records).getD j []).length ≠ maxFieldCount (cleanRows records) := by
        have hb := h3 j hj
        simpa only [beq_eq_false_iff_ne] using hb
      show ((cleanRows records).getD j []).length < ((cleanRows records).getD i []).length
      omega

/-- Witness for C8: a concrete record list whose second record has the
most fields; the first record becomes a comment, the duplicated header
record is dropped from the data. -/
theorem C8_witness :
    ¬ cleanRows [["note"], ["a", "b"], ["a", "b"], ["1", "2"]] = [] ∧
    (∃ out i,
      read_csv [["note"], ["a", "b"], ["a", "b"], ["1", "2"]] = some out ∧
      i < (cleanRows [["note"], ["a", "b"], ["a", "b"], ["1", "2"]]).length ∧
      out.head = (cleanRows [["note"], ["a", "b"], ["a", "b"], ["1", "2"]]).getD i [] ∧
      (∀ r ∈ cleanRows [["note"], ["a", "b"], ["a", "b"], ["1", "2"]],
        r.length ≤ out.head.length) ∧
      (∀ j, j < i →
        ((cleanRows [["note"], ["a", "b"], ["a", "b"], ["1", "2"]]).getD j []).length <
          out.head.length) ∧
      out.info = (cleanRows [["note"], ["a", "b"], ["a", "b"], ["1", "2"]]).take i ∧
      out.data = ((cleanRows [["note"], ["a", "b"], ["a", "b"], ["1", "2"]]).drop i).filter
        (fun r => ¬ r = out.head)) := by
  refine ⟨by decide, ?_⟩
  exact (C8_header_selection [["note"], ["a", "b"], ["a", "b"], ["1", "2"]]).2 (by decide)

/-- Python `dict` built from an association list: for duplicate keys the
last binding wins, so look the key up in the reversed list. -/
def dictGet {β : Type} (l : List (String × β)) (k : String) : Option β :=
  l.reverse.lookup k

/-- The required base types of `write_vbo` (name, short column name). -/
def reqBaseTypes : List (String × String) :=
  [("satellites", "sats"), ("time", "time"), ("latitude", "lat"), ("longitude", "long")]

/-- The optional base types of `write_vbo`. -/
def optBaseTypes : List (String × String) :=
  [("velocity kmh", "velocity"), ("heading", "heading"), ("height", "height"),
   ("vertical velocity m/s", "vert-vel"), ("vertical velocity kmh", "vert-vel"),
   ("yaw rate deg/s", "yaw-calc")]

/-- The dict `base_types` after the `update` call: the required base types plus
the optional base types present in the table header. -/
def baseTypesOf (header : List String) : List (String × String) :=
  reqBaseTypes ++ optBaseTypes.filter (fun kv => kv.1 ∈ header)

/-- The list `user_types`: header channels outside the (updated) base type keys. -/
def userTypesOf (header : List String) : List String :=
  header.filter (fun x => ¬ x ∈ (baseTypesOf header).map Prod.fst)

/-- One line of the `[comments]` section: a single-field record is
emitted verbatim; a multi-field record whose remaining fields are not
all empty is emitted as `label : f1;f2;...` with the label truncated at
the first colon of the first field; other records are dropped. -/
def commentLine (row : List String) : Option String :=
  match row with
  | [] => none
  | [x] => some x
  | x :: rest =>
    if 0 < (String.join rest).length then
      some (((x.splitOn (":")).headD ("")) ++ " : " ++ String.intercalate (";") rest)
    else none

/-- Model of `write_vbo`, as the list of strings passed to `output` in order (the
writer appends `"\r\n"` to each; the leading `"\r\n"` inside the section
markers yields the blank separator line).  The creation banner is the
injected `banner` string.  In the `[data]` section Python evaluates
`row[indices.get(name)]` and raises if `name` is missing from the table
header; at that point all earlier lines have already been emitted — the
missing-name cell is modelled as `""` here, and no claim concerns the
data section of such malformed tables. -/
def write_vbo (T : DataFrame String) (banner : String) : List String :=
  [banner, "\r\n[header]"] ++ (baseTypesOf T.head).map Prod.fst ++ userTypesOf T.head
    ++ (if 0 < (userTypesOf T.head).length then
          "\r\n[channel units]" ::
            (userTypesOf T.head).map (fun u => (dictGet T.units u).getD ("None"))
        else [])
    ++ "\r\n[comments]" :: T.info.filterMap commentLine
    ++ "\r\n[column names]" ::
        [String.intercalate (" ") ((baseTypesOf T.head).map Prod.snd ++ userTypesOf T.head)]
    ++ "\r\n[data]" :: T.data.map (fun row =>
        String.intercalate (" ")
          (((baseTypesOf T.head).map Prod.fst ++ userTypesOf T.head).map (fun n =>
            match dictGet (T.head.enum.map (fun p => (p.2, p.1))) n with
            | some idx => row.getD idx ("")
            | none => (""))))

/-- Claim C9: the writer emits the `[channel units]` section iff the
table has user-defined channels (header channels outside the fixed base
set), with exactly one unit line per user channel in the same order,
placed after the `[header]` section lines and immediately before the
`[comments]` marker. -/
theorem C9_channel_units_section (T : DataFrame String) (banner : String) :
    ∃ tailLines : List String,
      write_vbo T banner =
        [banner, "\r\n[header]"] ++ (baseTypesOf T.head).map Prod.fst ++ userTypesOf T.head
          ++ (if userTypesOf T.head = [] then []
              else "\r\n[channel units]" ::
                (userTypesOf T.head).map (fun u => (dictGet T.units u).getD ("None")))
          ++ "\r\n[comments]" :: tailLines ∧
      ((userTypesOf T.head).map (fun u => (dictGet T.units u).getD ("None"))).length =
        (userTypesOf T.head).length := by
  refine ⟨T.info.filterMap commentLine
      ++ "\r\n[column names]" ::
          [String.intercalate (" ") ((baseTypesOf T.head).map Prod.snd ++ userTypesOf T.head)]
      ++ "\r\n[data]" :: T.data.map (fun row =>
          String.intercalate (" ")
            (((baseTypesOf T.head).map Prod.fst ++ userTypesOf T.head).map (fun n =>
              match dictGet (T.head.enum.map (fun p => (p.2, p.1))) n with
              | some idx => row.getD idx ("")
              | none => ("")))), ?_, List.length_map _ _⟩
  unfold write_vbo
  cases h : userTypesOf T.head with
  | nil => simp [h]
  | cons u us => simp [h]

end Csv2Vbo
